import Mathlib

/-!
Shallow embedding of the prediction computation layer of the survival-analysis
service (src/backend/main.py): risk categorization, horizon sampling over the
survival curve, median-survival lookup, single prediction and batch prediction.

Modelling choices:
* Python floats are embedded as rationals; where IEEE NaN semantics matter
  (every comparison with NaN is false) a dedicated type PyFloat with a
  NaN-aware strict-less-than is used for the hazard value.
* The fitted Cox model is the opaque collaborator of the code: a pair of
  fallible functions producing the partial hazard and the survival function
  (a finite list of (time, probability) points, index order = pandas index
  order). Exceptions raised by the collaborator are Except.error values; the
  try/except blocks of the endpoints correspond to the Except plumbing.
* The survival function DataFrame is a list of (time, probability) pairs;
  its pandas index is the list of first components.
* pandas Index.get_indexer(..., method='nearest') on a monotonically
  increasing index resolves a target to the closer of the floor/ceiling
  neighbours, resolving exact ties to the ceiling (later) position, since
  pandas keeps the left neighbour only when its distance is strictly
  smaller. nearestIndex embeds exactly that behaviour.
* The timestamp field (wall-clock time) is outside the embedding.
-/

namespace SurvivalAPI

/-- Embedding of a Python float where NaN behaviour is relevant: either NaN or
a finite value (a rational). -/
inductive PyFloat where
  | nan : PyFloat
  | val : ℚ → PyFloat
deriving Repr, DecidableEq, Inhabited

/-- IEEE-style strict less-than on embedded floats: any comparison involving
NaN is false. -/
def PyFloat.lt : PyFloat → PyFloat → Bool
  | .val a, .val b => decide (a < b)
  | _, _ => false

/-- Risk categorization of main.py lines 129-134 (and the identical block at
lines 180-185): hazard below 0.5 is Low, below 1.5 is Medium, else High. The
thresholds 0.5 and 1.5 are written mkRat 1 2 and mkRat 3 2 (the same
rationals) so that closed instances evaluate inside the kernel. -/
def riskScore (partial_hazard : PyFloat) : String :=
  if PyFloat.lt partial_hazard (.val (mkRat 1 2)) then "Low Risk"
  else if PyFloat.lt partial_hazard (.val (mkRat 3 2)) then "Medium Risk"
  else "High Risk"

/-- Input schema of main.py lines 47-59 (class PatientInput): eleven required
numeric fields, time being the patient's current age in years. -/
structure PatientInput where
  time : ℚ
  sex : ℤ
  chest_pain_type : ℤ
  resting_bp : ℚ
  cholesterol : ℚ
  fasting_bs : ℤ
  resting_ecg : ℤ
  max_hr : ℚ
  exercise_angina : ℤ
  oldpeak : ℚ
  st_slope : ℤ
deriving Repr, DecidableEq, Inhabited

/-- The eleven field names declared by PatientInput, in declaration order. -/
def requiredFields : List String :=
  ["time", "sex", "chest_pain_type", "resting_bp", "cholesterol",
   "fasting_bs", "resting_ecg", "max_hr", "exercise_angina", "oldpeak",
   "st_slope"]

/-- Lookup of a named field in a raw request record (a finite mapping from
field names to numeric values, first occurrence wins). -/
def lookupField (record : List (String × ℚ)) (key : String) : Option ℚ :=
  (record.find? (fun kv => decide (kv.1 = key))).map Prod.snd

/-- Python int() truncation toward zero, as in current_age = int(patient.time)
at main.py line 141, and as pydantic v1 int-field coercion of a float. -/
def pyInt (q : ℚ) : ℤ := if 0 ≤ q then ⌊q⌋ else ⌈q⌉

/-- Validation of a raw request record against the PatientInput schema, as the
pydantic model boundary of the endpoints performs it: each declared required
field must be present (a missing field is a validation failure, reported to
the client); fields not declared in the schema are ignored. -/
def parsePatient (record : List (String × ℚ)) : Option PatientInput :=
  match lookupField record "time", lookupField record "sex",
        lookupField record "chest_pain_type", lookupField record "resting_bp",
        lookupField record "cholesterol", lookupField record "fasting_bs",
        lookupField record "resting_ecg", lookupField record "max_hr",
        lookupField record "exercise_angina", lookupField record "oldpeak",
        lookupField record "st_slope" with
  | some time, some sex, some chest_pain_type, some resting_bp,
    some cholesterol, some fasting_bs, some resting_ecg, some max_hr,
    some exercise_angina, some oldpeak, some st_slope =>
      some ⟨time, pyInt sex, pyInt chest_pain_type, resting_bp, cholesterol,
            pyInt fasting_bs, pyInt resting_ecg, max_hr, pyInt exercise_angina,
            oldpeak, pyInt st_slope⟩
  | _, _, _, _, _, _, _, _, _, _, _ => none

/-- Number of index entries strictly below the target, the searchsorted-left
position pandas computes for the backfill (ceiling) neighbour. -/
def lowerCount (ts : List ℚ) (h : ℚ) : ℕ :=
  (ts.takeWhile (fun t => decide (t < h))).length

/-- Embedding of pandas Index.get_indexer([h], method='nearest')[0] on a
sorted, strictly increasing index ts (main.py line 144): pandas computes the
pad (floor) and backfill (ceiling) positions and keeps the floor only when its
distance to h is strictly smaller, so an exact tie resolves to the ceiling
(later) position; a target below the whole index resolves to position 0 and a
target above it to the last position. -/
def nearestIndex (ts : List ℚ) (h : ℚ) : ℕ :=
  if lowerCount ts h = 0 then 0
  else if lowerCount ts h = ts.length then ts.length - 1
  else if h - ts.getD (lowerCount ts h - 1) 0 < ts.getD (lowerCount ts h) 0 - h
    then lowerCount ts h - 1
  else lowerCount ts h

/-- Body of the horizon loop of main.py lines 140-145 for one horizon age: the
horizon is kept only when it does not exceed the maximum of the curve's index
(an empty curve has no maximum, so nothing is kept), and its probability is
read at the nearest index position. -/
def keepHorizon (survival_func : List (ℚ × ℚ)) (h : ℤ) : Option (ℤ × ℚ) :=
  match (survival_func.map Prod.fst).maximum with
  | none => none
  | some m =>
    if (h : ℚ) ≤ m then
      some (h, (survival_func.map Prod.snd).getD
        (nearestIndex (survival_func.map Prod.fst) (h : ℚ)) 0)
    else none

/-- Whether a horizon age lies within the curve's defined domain, the guard of
main.py line 143. -/
def inDomain (survival_func : List (ℚ × ℚ)) (h : ℤ) : Bool :=
  match (survival_func.map Prod.fst).maximum with
  | none => false
  | some m => decide ((h : ℚ) ≤ m)

/-- Horizon loop of main.py lines 140-145 over an arbitrary list of horizon
ages. -/
def horizonProbs (survival_func : List (ℚ × ℚ)) (horizons : List ℤ) :
    List (ℤ × ℚ) :=
  horizons.filterMap (keepHorizon survival_func)

/-- Horizon sampling of main.py lines 140-145: probabilities at the four ages
current_age + 5, + 10, + 15, + 20, skipping any beyond the curve's maximum
defined age. -/
def survivalProbs (survival_func : List (ℚ × ℚ)) (current_age : ℤ) :
    List (ℤ × ℚ) :=
  horizonProbs survival_func
    [current_age + 5, current_age + 10, current_age + 15, current_age + 20]

/-- Median-survival lookup of main.py lines 148-149: the index value of the
first row whose probability is strictly below 0.5, and otherwise the last
index value; on an empty curve the indexing raises (none, caught by the
surrounding try/except). -/
def medianSurvival (survival_func : List (ℚ × ℚ)) : Option ℚ :=
  match survival_func.find? (fun p => decide (p.2 < mkRat 1 2)) with
  | some p => some p.1
  | none => (survival_func.getLast?).map Prod.fst

/-- The opaque fitted-model collaborator: partial hazard and survival function
over a patient's covariates, each of which may raise. -/
structure Model where
  partial_hazard : PatientInput → Except String PyFloat
  survival_function : PatientInput → Except String (List (ℚ × ℚ))

/-- Output schema of main.py lines 78-84 (timestamp omitted: wall-clock). -/
structure PredictionResponse where
  hazard_ratio : PyFloat
  risk_score : String
  median_survival_age : Option ℚ
  survival_probabilities : List (ℤ × ℚ)
deriving Repr, DecidableEq

/-- One entry of the batch response of main.py lines 187-191. -/
structure BatchResult where
  patient_age : ℚ
  hazard_ratio : PyFloat
  risk_score : String
deriving Repr, DecidableEq, Inhabited

/-- Single prediction, main.py lines 117-160: hazard, risk category, survival
curve, horizon probabilities and median survival age; any exception from the
collaborator or from indexing an empty curve aborts the call with an error
(the except branch at line 159). The feature projection of lines 119-123 is a
pure reordering of the typed record against the fixed schema and cannot fail
there. -/
def predict (M : Model) (patient : PatientInput) :
    Except String PredictionResponse :=
  match M.partial_hazard patient with
  | .error e => .error e
  | .ok partial_hazard =>
    match M.survival_function patient with
    | .error e => .error e
    | .ok survival_func =>
      match medianSurvival survival_func with
      | none => .error "Prediction error"
      | some median_survival =>
        .ok ⟨partial_hazard, riskScore partial_hazard, some median_survival,
             survivalProbs survival_func (pyInt patient.time)⟩

/-- Body of the batch loop, main.py lines 172-191: hazard and risk category
only (no survival-curve work in batch mode). -/
def scoreOne (M : Model) (patient : PatientInput) : Except String BatchResult :=
  match M.partial_hazard patient with
  | .error e => .error e
  | .ok partial_hazard =>
    .ok ⟨patient.time, partial_hazard, riskScore partial_hazard⟩

/-- Batch prediction, main.py lines 162-196: the records are scored in input
order inside one try/except, so the first exception aborts the whole batch
with a single error (the except branch at line 195). -/
def predict_batch (M : Model) (patients : List PatientInput) :
    Except String (List BatchResult) :=
  match patients with
  | [] => .ok []
  | p :: rest =>
    match scoreOne M p with
    | .error e => .error e
    | .ok r =>
      match predict_batch M rest with
      | .error e => .error e
      | .ok rs => .ok (r :: rs)

/-! Concrete instances used to evaluate the development on closed inputs. -/

/-- The example patient of the schema_extra block of main.py lines 62-76. -/
def samplePatient : PatientInput := ⟨55, 0, 0, 140, 200, 0, 0, 140, 0, 1, 1⟩

/-- A second patient; its sex flag marks it for the failing collaborator. -/
def otherPatient : PatientInput := ⟨60, 1, 0, 140, 200, 0, 0, 140, 0, 1, 1⟩

/-- A small survival curve with strictly increasing ages and non-increasing
probabilities, lying above the sample patient's horizons. -/
def sampleCurve : List (ℚ × ℚ) :=
  [(80, mkRat 19 20), (90, mkRat 9 20)]

/-- A curve exhibiting an exact nearest-neighbour tie at horizon age 60. -/
def tieCurve : List (ℚ × ℚ) := [(59, mkRat 9 10), (61, mkRat 4 5)]

/-- A collaborator that always succeeds. -/
def okModel : Model := ⟨fun _ => .ok (.val 1), fun _ => .ok sampleCurve⟩

/-- A collaborator that raises on records with sex flag 1 and succeeds on the
rest. -/
def failingModel : Model :=
  ⟨fun p => if p.sex = 1 then .error "boom" else .ok (.val 1),
   fun _ => .ok sampleCurve⟩

/-! Helper lemmas about takeWhile-based index positions. -/

lemma takeWhile_getD_sat {α : Type} (p : α → Bool) (l : List α) (d : α) :
    ∀ j, j < (l.takeWhile p).length → p (l.getD j d) = true := by
  induction l with
  | nil => intro j hj; simp at hj
  | cons a t ih =>
    intro j hj
    by_cases hp : p a
    · rw [List.takeWhile_cons_of_pos hp] at hj
      cases j with
      | zero => simpa using hp
      | succ j =>
        rw [List.getD_cons_succ]
        exact ih j (by simpa using hj)
    · rw [List.takeWhile_cons_of_neg hp] at hj
      simp at hj

lemma takeWhile_getD_boundary {α : Type} (p : α → Bool) (l : List α) (d : α)
    (hk : (l.takeWhile p).length < l.length) :
    p (l.getD (l.takeWhile p).length d) = false := by
  induction l with
  | nil => simp at hk
  | cons a t ih =>
    by_cases hp : p a
    · rw [List.takeWhile_cons_of_pos hp] at hk ⊢
      rw [List.length_cons, List.getD_cons_succ]
      exact ih (by simpa using hk)
    · rw [List.takeWhile_cons_of_neg hp]
      simpa using hp

lemma takeWhile_length_mono {α : Type} (p q : α → Bool) (l : List α)
    (himp : ∀ x, p x = true → q x = true) :
    (l.takeWhile p).length ≤ (l.takeWhile q).length := by
  induction l with
  | nil => simp
  | cons a t ih =>
    by_cases hp : p a
    · have hq : q a := himp a hp
      rw [List.takeWhile_cons_of_pos hp, List.takeWhile_cons_of_pos hq]
      simpa using ih
    · rw [List.takeWhile_cons_of_neg hp]
      simp

lemma lowerCount_le_length (ts : List ℚ) (h : ℚ) : lowerCount ts h ≤ ts.length :=
  (List.takeWhile_prefix _).length_le

lemma getD_lt_of_lt_lowerCount (ts : List ℚ) (h : ℚ) {j : ℕ}
    (hj : j < lowerCount ts h) : ts.getD j 0 < h := by
  have := takeWhile_getD_sat (fun t => decide (t < h)) ts 0 j hj
  simpa using this

lemma le_getD_lowerCount (ts : List ℚ) (h : ℚ)
    (hlt : lowerCount ts h < ts.length) : h ≤ ts.getD (lowerCount ts h) 0 := by
  have := takeWhile_getD_boundary (fun t => decide (t < h)) ts 0 hlt
  rw [decide_eq_false_iff_not] at this
  exact le_of_not_lt this

lemma lowerCount_mono (ts : List ℚ) {h h' : ℚ} (hh : h ≤ h') :
    lowerCount ts h ≤ lowerCount ts h' := by
  apply takeWhile_length_mono
  intro x hx
  simp at hx ⊢
  linarith

/-! Helper lemmas about sorted index access. -/

lemma sorted_getD_lt (ts : List ℚ) (hs : ts.Chain' (· < ·)) {i j : ℕ}
    (hij : i < j) (hj : j < ts.length) : ts.getD i 0 < ts.getD j 0 := by
  have hp : ts.Pairwise (· < ·) := List.chain'_iff_pairwise.mp hs
  have hi : i < ts.length := lt_trans hij hj
  rw [List.getD_eq_getElem ts 0 hi, List.getD_eq_getElem ts 0 hj]
  exact List.pairwise_iff_getElem.mp hp i j hi hj hij

lemma sorted_getD_le (ts : List ℚ) (hs : ts.Chain' (· < ·)) {i j : ℕ}
    (hij : i ≤ j) (hj : j < ts.length) : ts.getD i 0 ≤ ts.getD j 0 := by
  rcases eq_or_lt_of_le hij with rfl | hlt
  · exact le_refl _
  · exact le_of_lt (sorted_getD_lt ts hs hlt hj)

/-! Helper lemmas about the nearest-neighbour position. -/

lemma nearestIndex_lt_length (ts : List ℚ) (h : ℚ) (hne : ts ≠ []) :
    nearestIndex ts h < ts.length := by
  have hlen : 0 < ts.length := List.length_pos.mpr hne
  have hle := lowerCount_le_length ts h
  unfold nearestIndex
  split_ifs <;> omega

lemma nearestIndex_le_lowerCount (ts : List ℚ) (h : ℚ) :
    nearestIndex ts h ≤ lowerCount ts h := by
  have hle := lowerCount_le_length ts h
  unfold nearestIndex
  split_ifs <;> omega

lemma lowerCount_le_nearestIndex_add_one (ts : List ℚ) (h : ℚ) :
    lowerCount ts h ≤ nearestIndex ts h + 1 := by
  have hle := lowerCount_le_length ts h
  unfold nearestIndex
  split_ifs <;> omega

lemma nearestIndex_mono (ts : List ℚ) {h h' : ℚ} (hh : h ≤ h') :
    nearestIndex ts h ≤ nearestIndex ts h' := by
  have hmono := lowerCount_mono ts hh
  rcases lt_or_eq_of_le hmono with hlt | heq
  · have h1 := nearestIndex_le_lowerCount ts h
    have h2 := lowerCount_le_nearestIndex_add_one ts h'
    omega
  · unfold nearestIndex
    rw [← heq]
    split_ifs <;> first | omega | (exfalso; linarith)

lemma nearestIndex_eq_zero (ts : List ℚ) (h : ℚ) (c1 : lowerCount ts h = 0) :
    nearestIndex ts h = 0 := by
  unfold nearestIndex
  rw [if_pos c1]

lemma nearestIndex_eq_last (ts : List ℚ) (h : ℚ) (c1 : lowerCount ts h ≠ 0)
    (c2 : lowerCount ts h = ts.length) : nearestIndex ts h = ts.length - 1 := by
  unfold nearestIndex
  rw [if_neg c1, if_pos c2]

lemma nearestIndex_eq_floor (ts : List ℚ) (h : ℚ) (c1 : lowerCount ts h ≠ 0)
    (c2 : lowerCount ts h ≠ ts.length)
    (c3 : h - ts.getD (lowerCount ts h - 1) 0 < ts.getD (lowerCount ts h) 0 - h) :
    nearestIndex ts h = lowerCount ts h - 1 := by
  unfold nearestIndex
  rw [if_neg c1, if_neg c2, if_pos c3]

lemma nearestIndex_eq_ceil (ts : List ℚ) (h : ℚ) (c1 : lowerCount ts h ≠ 0)
    (c2 : lowerCount ts h ≠ ts.length)
    (c3 : ¬(h - ts.getD (lowerCount ts h - 1) 0 < ts.getD (lowerCount ts h) 0 - h)) :
    nearestIndex ts h = lowerCount ts h := by
  unfold nearestIndex
  rw [if_neg c1, if_neg c2, if_neg c3]

/-- The pandas nearest position minimizes the distance to the target over the
whole sorted index, and among equally distant positions it is the one with the
largest (latest) index value. -/
lemma nearestIndex_spec (ts : List ℚ) (h : ℚ) (hs : ts.Chain' (· < ·))
    (hne : ts ≠ []) (j : ℕ) (hj : j < ts.length) :
    |ts.getD (nearestIndex ts h) 0 - h| ≤ |ts.getD j 0 - h| ∧
    (|ts.getD j 0 - h| = |ts.getD (nearestIndex ts h) 0 - h| →
      ts.getD j 0 ≤ ts.getD (nearestIndex ts h) 0) := by
  have hlen : 0 < ts.length := List.length_pos.mpr hne
  have hle := lowerCount_le_length ts h
  by_cases c1 : lowerCount ts h = 0
  · rw [nearestIndex_eq_zero ts h c1]
    have hj0 : ∀ k, k < ts.length → h ≤ ts.getD k 0 := by
      intro k hk
      have hbase : h ≤ ts.getD (lowerCount ts h) 0 :=
        le_getD_lowerCount ts h (by omega)
      rw [c1] at hbase
      exact le_trans hbase (sorted_getD_le ts hs (Nat.zero_le k) hk)
    have h0j : ts.getD 0 0 ≤ ts.getD j 0 := sorted_getD_le ts hs (Nat.zero_le j) hj
    have habs : |ts.getD 0 0 - h| = ts.getD 0 0 - h :=
      abs_of_nonneg (by linarith [hj0 0 hlen])
    have habsj : |ts.getD j 0 - h| = ts.getD j 0 - h :=
      abs_of_nonneg (by linarith [hj0 j hj])
    constructor
    · rw [habs, habsj]; linarith
    · intro heq; rw [habs, habsj] at heq; linarith
  · by_cases c2 : lowerCount ts h = ts.length
    · rw [nearestIndex_eq_last ts h c1 c2]
      have hjh : ts.getD j 0 < h := getD_lt_of_lt_lowerCount ts h (by omega)
      have hlh : ts.getD (ts.length - 1) 0 < h :=
        getD_lt_of_lt_lowerCount ts h (by omega)
      have hjl : ts.getD j 0 ≤ ts.getD (ts.length - 1) 0 :=
        sorted_getD_le ts hs (by omega) (by omega)
      have habs : |ts.getD (ts.length - 1) 0 - h| = h - ts.getD (ts.length - 1) 0 := by
        rw [abs_of_nonpos (by linarith)]; ring
      have habsj : |ts.getD j 0 - h| = h - ts.getD j 0 := by
        rw [abs_of_nonpos (by linarith)]; ring
      constructor
      · rw [habs, habsj]; linarith
      · intro heq; rw [habs, habsj] at heq; linarith
    · -- interior case: a floor neighbour at lowerCount - 1 and a ceiling at
      -- lowerCount both exist
      have ha1 : lowerCount ts h - 1 < lowerCount ts h := by omega
      have haup : lowerCount ts h < ts.length := by omega
      have hd1 : ts.getD (lowerCount ts h - 1) 0 < h :=
        getD_lt_of_lt_lowerCount ts h ha1
      have hd2 : h ≤ ts.getD (lowerCount ts h) 0 := le_getD_lowerCount ts h haup
      by_cases c3 : h - ts.getD (lowerCount ts h - 1) 0 <
          ts.getD (lowerCount ts h) 0 - h
      · rw [nearestIndex_eq_floor ts h c1 c2 c3]
        have habs : |ts.getD (lowerCount ts h - 1) 0 - h| =
            h - ts.getD (lowerCount ts h - 1) 0 := by
          rw [abs_of_nonpos (by linarith)]; ring
        rcases Nat.lt_or_ge j (lowerCount ts h) with hja | hja
        · have hjh : ts.getD j 0 < h := getD_lt_of_lt_lowerCount ts h hja
          have hjfl : ts.getD j 0 ≤ ts.getD (lowerCount ts h - 1) 0 :=
            sorted_getD_le ts hs (by omega) (by omega)
          have habsj : |ts.getD j 0 - h| = h - ts.getD j 0 := by
            rw [abs_of_nonpos (by linarith)]; ring
          constructor
          · rw [habs, habsj]; linarith
          · intro heq; rw [habs, habsj] at heq; linarith
        · have hjh : h ≤ ts.getD j 0 := by
            exact le_trans hd2 (sorted_getD_le ts hs hja hj)
          have habsj : |ts.getD j 0 - h| = ts.getD j 0 - h :=
            abs_of_nonneg (by linarith)
          have hcl : ts.getD (lowerCount ts h) 0 ≤ ts.getD j 0 :=
            sorted_getD_le ts hs hja hj
          constructor
          · rw [habs, habsj]; linarith
          · intro heq; rw [habs, habsj] at heq; exfalso; linarith
      · rw [nearestIndex_eq_ceil ts h c1 c2 c3]
        have habs : |ts.getD (lowerCount ts h) 0 - h| =
            ts.getD (lowerCount ts h) 0 - h := abs_of_nonneg (by linarith)
        rcases Nat.lt_or_ge j (lowerCount ts h) with hja | hja
        · have hjh : ts.getD j 0 < h := getD_lt_of_lt_lowerCount ts h hja
          have hjfl : ts.getD j 0 ≤ ts.getD (lowerCount ts h - 1) 0 :=
            sorted_getD_le ts hs (by omega) (by omega)
          have habsj : |ts.getD j 0 - h| = h - ts.getD j 0 := by
            rw [abs_of_nonpos (by linarith)]; ring
          constructor
          · rw [habs, habsj]; linarith
          · intro heq; linarith
        · have hjh : h ≤ ts.getD j 0 := le_trans hd2 (sorted_getD_le ts hs hja hj)
          have habsj : |ts.getD j 0 - h| = ts.getD j 0 - h :=
            abs_of_nonneg (by linarith)
          have hcl : ts.getD (lowerCount ts h) 0 ≤ ts.getD j 0 :=
            sorted_getD_le ts hs hja hj
          constructor
          · rw [habs, habsj]; linarith
          · intro heq; rw [habs, habsj] at heq; linarith

/-! Helper lemmas about the horizon loop. -/

lemma keepHorizon_of_inDomain_false (sf : List (ℚ × ℚ)) (h : ℤ)
    (hd : inDomain sf h = false) : keepHorizon sf h = none := by
  unfold inDomain at hd
  unfold keepHorizon
  cases hm : (sf.map Prod.fst).maximum with
  | bot => rfl
  | coe m =>
    rw [hm] at hd
    have hd' : decide ((h : ℚ) ≤ m) = false := hd
    show (if (h : ℚ) ≤ m then
        some (h, (sf.map Prod.snd).getD (nearestIndex (sf.map Prod.fst) (h : ℚ)) 0)
      else none) = none
    rw [if_neg (by simpa using hd')]

lemma keepHorizon_of_inDomain_true (sf : List (ℚ × ℚ)) (h : ℤ)
    (hd : inDomain sf h = true) :
    keepHorizon sf h =
      some (h, (sf.map Prod.snd).getD (nearestIndex (sf.map Prod.fst) (h : ℚ)) 0) := by
  unfold inDomain at hd
  unfold keepHorizon
  cases hm : (sf.map Prod.fst).maximum with
  | bot =>
    rw [hm] at hd
    have hd' : false = true := hd
    cases hd'
  | coe m =>
    rw [hm] at hd
    have hd' : decide ((h : ℚ) ≤ m) = true := hd
    show (if (h : ℚ) ≤ m then
        some (h, (sf.map Prod.snd).getD (nearestIndex (sf.map Prod.fst) (h : ℚ)) 0)
      else none) =
      some (h, (sf.map Prod.snd).getD (nearestIndex (sf.map Prod.fst) (h : ℚ)) 0)
    rw [if_pos (by simpa using hd')]

lemma inDomain_nil_false (h : ℤ) : inDomain [] h = false := rfl

lemma ne_nil_of_inDomain (sf : List (ℚ × ℚ)) (h : ℤ)
    (hd : inDomain sf h = true) : sf ≠ [] := by
  intro hcon
  subst hcon
  rw [inDomain_nil_false] at hd
  cases hd

lemma inDomain_le_max (sf : List (ℚ × ℚ)) (h : ℤ) (m : ℚ)
    (hd : inDomain sf h = true) (hm : (sf.map Prod.fst).maximum = some m) :
    (h : ℚ) ≤ m := by
  unfold inDomain at hd
  rw [hm] at hd
  simpa using hd

lemma horizonProbs_keys (sf : List (ℚ × ℚ)) (H : List ℤ) :
    (horizonProbs sf H).map Prod.fst = H.filter (inDomain sf) := by
  induction H with
  | nil => rfl
  | cons h t ih =>
    unfold horizonProbs at ih ⊢
    rw [List.filter_cons]
    cases hd : inDomain sf h with
    | false =>
      rw [List.filterMap_cons_none (keepHorizon_of_inDomain_false sf h hd)]
      simpa using ih
    | true =>
      rw [List.filterMap_cons_some (keepHorizon_of_inDomain_true sf h hd)]
      simpa using ih

/-! Helper lemmas about a monotone survival curve. -/

lemma curve_pairwise (curve : List (ℚ × ℚ))
    (hc : curve.Chain' (fun p q => p.1 < q.1 ∧ q.2 ≤ p.2)) :
    curve.Pairwise (fun p q => p.1 < q.1 ∧ q.2 ≤ p.2) := by
  haveI : IsTrans (ℚ × ℚ) (fun p q => p.1 < q.1 ∧ q.2 ≤ p.2) :=
    ⟨fun a b c hab hbc => ⟨lt_trans hab.1 hbc.1, le_trans hbc.2 hab.2⟩⟩
  exact List.chain'_iff_pairwise.mp hc

lemma curve_times_sorted (curve : List (ℚ × ℚ))
    (hc : curve.Chain' (fun p q => p.1 < q.1 ∧ q.2 ≤ p.2)) :
    (curve.map Prod.fst).Chain' (· < ·) := by
  have hp := curve_pairwise curve hc
  have hmap : (curve.map Prod.fst).Pairwise (· < ·) :=
    List.pairwise_map.mpr (hp.imp (fun hpq => hpq.1))
  exact hmap.chain'

lemma probs_antitone (curve : List (ℚ × ℚ))
    (hc : curve.Chain' (fun p q => p.1 < q.1 ∧ q.2 ≤ p.2)) {i j : ℕ}
    (hij : i ≤ j) (hj : j < curve.length) :
    (curve.map Prod.snd).getD j 0 ≤ (curve.map Prod.snd).getD i 0 := by
  rcases eq_or_lt_of_le hij with rfl | hlt
  · exact le_refl _
  · have hp := curve_pairwise curve hc
    have hmap : (curve.map Prod.snd).Pairwise (fun x y => y ≤ x) :=
      List.pairwise_map.mpr (hp.imp (fun hpq => hpq.2))
    have hlen : (curve.map Prod.snd).length = curve.length := List.length_map _ _
    have hi : i < (curve.map Prod.snd).length := by omega
    have hj2 : j < (curve.map Prod.snd).length := by omega
    rw [List.getD_eq_getElem _ 0 hi, List.getD_eq_getElem _ 0 hj2]
    exact List.pairwise_iff_getElem.mp hmap i j hi hj2 hlt

lemma keepHorizon_snd_mono (curve : List (ℚ × ℚ))
    (hc : curve.Chain' (fun p q => p.1 < q.1 ∧ q.2 ≤ p.2)) {h h' : ℤ}
    (hle : h ≤ h') {x y : ℤ × ℚ} (hx : keepHorizon curve h = some x)
    (hy : keepHorizon curve h' = some y) : y.2 ≤ x.2 := by
  have hdx : inDomain curve h = true := by
    cases hd : inDomain curve h with
    | false => rw [keepHorizon_of_inDomain_false curve h hd] at hx; cases hx
    | true => rfl
  have hdy : inDomain curve h' = true := by
    cases hd : inDomain curve h' with
    | false => rw [keepHorizon_of_inDomain_false curve h' hd] at hy; cases hy
    | true => rfl
  rw [keepHorizon_of_inDomain_true curve h hdx] at hx
  rw [keepHorizon_of_inDomain_true curve h' hdy] at hy
  have hne : curve ≠ [] := ne_nil_of_inDomain curve h hdx
  have hne2 : curve.map Prod.fst ≠ [] := by
    intro hcon
    exact hne (List.map_eq_nil_iff.mp hcon)
  have hmono : nearestIndex (curve.map Prod.fst) (h : ℚ) ≤
      nearestIndex (curve.map Prod.fst) (h' : ℚ) :=
    nearestIndex_mono _ (by exact_mod_cast hle)
  have hlt : nearestIndex (curve.map Prod.fst) (h' : ℚ) < curve.length := by
    have := nearestIndex_lt_length (curve.map Prod.fst) (h' : ℚ) hne2
    simpa using this
  have hanti := probs_antitone curve hc hmono hlt
  injection hx with hx
  injection hy with hy
  rw [← hx, ← hy]
  exact hanti

lemma horizonProbs_snd_chain (curve : List (ℚ × ℚ))
    (hc : curve.Chain' (fun p q => p.1 < q.1 ∧ q.2 ≤ p.2)) (H : List ℤ)
    (hH : H.Pairwise (· ≤ ·)) :
    ((horizonProbs curve H).map Prod.snd).Chain' (fun x y => y ≤ x) := by
  induction H with
  | nil => exact List.chain'_nil
  | cons h t ih =>
    rw [List.pairwise_cons] at hH
    obtain ⟨hhead, htail⟩ := hH
    unfold horizonProbs at ih ⊢
    rw [List.filterMap_cons]
    cases hk : keepHorizon curve h with
    | none => exact ih htail
    | some x =>
      rw [List.map_cons, List.chain'_cons']
      refine ⟨?_, ih htail⟩
      intro y hy
      have hymem : y ∈ (t.filterMap (keepHorizon curve)).map Prod.snd :=
        List.mem_of_mem_head? hy
      rw [List.mem_map] at hymem
      obtain ⟨p, hpmem, hpy⟩ := hymem
      rw [List.mem_filterMap] at hpmem
      obtain ⟨h', hh', hkp⟩ := hpmem
      rw [← hpy]
      exact keepHorizon_snd_mono curve hc (hhead h' hh') hk hkp

/-! Helper lemmas about the median lookup. -/

lemma find?_first_getD {α : Type} (p : α → Bool) (l : List α) (d : α) :
    ∀ i, i < l.length → p (l.getD i d) = true →
      (∀ j, j < i → p (l.getD j d) = false) →
      l.find? p = some (l.getD i d) := by
  induction l with
  | nil => intro i hi _ _; exact absurd hi (by simp)
  | cons a t ih =>
    intro i hi hpi hmin
    cases i with
    | zero =>
      rw [List.getD_cons_zero] at hpi ⊢
      exact List.find?_cons_of_pos t hpi
    | succ i =>
      have ha : p a = false := by
        have := hmin 0 (Nat.succ_pos i)
        simpa using this
      rw [List.getD_cons_succ]
      rw [List.find?_cons_of_neg t (by simp [ha])]
      apply ih i (by simpa using hi) (by simpa using hpi)
      intro j hj
      have := hmin (j + 1) (by omega)
      simpa using this

lemma sorted_le_getLast (ts : List ℚ) (hs : ts.Chain' (· < ·)) (x : ℚ)
    (hx : x ∈ ts) (hne : ts ≠ []) : x ≤ ts.getLast hne := by
  obtain ⟨i, hilt, hieq⟩ := List.mem_iff_getElem.mp hx
  have hlen : 0 < ts.length := List.length_pos.mpr hne
  rw [List.getLast_eq_getElem]
  have hle := sorted_getD_le ts hs
    (show i ≤ ts.length - 1 by omega) (show ts.length - 1 < ts.length by omega)
  rw [List.getD_eq_getElem ts 0 hilt,
      List.getD_eq_getElem ts 0 (show ts.length - 1 < ts.length by omega)] at hle
  rw [← hieq]
  exact hle

/-! Helper lemmas about the endpoints. -/

lemma predict_ok_spec (M : Model) (p : PatientInput) (r : PredictionResponse)
    (h : predict M p = .ok r) :
    M.partial_hazard p = .ok r.hazard_ratio ∧
    r.risk_score = riskScore r.hazard_ratio ∧
    ∃ curve, M.survival_function p = .ok curve ∧
      r.survival_probabilities = survivalProbs curve (pyInt p.time) ∧
      r.median_survival_age = medianSurvival curve := by
  unfold predict at h
  split at h
  · cases h
  · split at h
    · cases h
    · split at h
      · cases h
      · injection h with h
        subst h
        rename_i ms heq3
        refine ⟨by assumption, rfl, _, by assumption, rfl, heq3.symm⟩

lemma scoreOne_of_predict_ok (M : Model) (p : PatientInput)
    (r : PredictionResponse) (h : predict M p = .ok r) :
    scoreOne M p = .ok ⟨p.time, r.hazard_ratio, r.risk_score⟩ := by
  obtain ⟨hph, hrisk, -⟩ := predict_ok_spec M p r h
  unfold scoreOne
  rw [hph, hrisk]

lemma predict_batch_cons (M : Model) (p : PatientInput)
    (rest : List PatientInput) (b : BatchResult) (rs : List BatchResult)
    (h1 : scoreOne M p = .ok b) (h2 : predict_batch M rest = .ok rs) :
    predict_batch M (p :: rest) = .ok (b :: rs) := by
  unfold predict_batch
  rw [h1]
  show (match predict_batch M rest with
    | Except.error e => (Except.error e : Except String (List BatchResult))
    | Except.ok rs2 => Except.ok (b :: rs2)) = Except.ok (b :: rs)
  rw [h2]

lemma predict_ok_median_some (M : Model) (p : PatientInput)
    (r : PredictionResponse) (h : predict M p = .ok r) :
    ∃ ms, r.median_survival_age = some ms := by
  unfold predict at h
  split at h
  · cases h
  · split at h
    · cases h
    · split at h
      · cases h
      · injection h with h
        subst h
        exact ⟨_, rfl⟩

lemma horizons_pairwise_lt (a : ℤ) :
    ([a + 5, a + 10, a + 15, a + 20] : List ℤ).Pairwise (· < ·) := by
  simp [List.pairwise_cons]

lemma horizons_pairwise_le (a : ℤ) :
    ([a + 5, a + 10, a + 15, a + 20] : List ℤ).Pairwise (· ≤ ·) := by
  simp [List.pairwise_cons]

lemma half_eq : (mkRat 1 2 : ℚ) = 1/2 := by norm_num [Rat.mkRat_eq_div]

lemma threehalf_eq : (mkRat 3 2 : ℚ) = 3/2 := by norm_num [Rat.mkRat_eq_div]

lemma tieCurve_nearest : nearestIndex (tieCurve.map Prod.fst) ((60 : ℤ) : ℚ) = 1 := by
  apply nearestIndex_eq_ceil
  · decide
  · decide
  · have h0 : (tieCurve.map Prod.fst).getD
        (lowerCount (tieCurve.map Prod.fst) ((60 : ℤ) : ℚ) - 1) 0 = 59 := by decide
    have h1 : (tieCurve.map Prod.fst).getD
        (lowerCount (tieCurve.map Prod.fst) ((60 : ℤ) : ℚ)) 0 = 61 := by decide
    rw [h0, h1, show ((60 : ℤ) : ℚ) = 60 from by norm_num]
    norm_num

lemma tie_keep60 : keepHorizon tieCurve 60 = some (60, mkRat 4 5) := by
  rw [keepHorizon_of_inDomain_true tieCurve 60 (by decide), tieCurve_nearest]
  decide

/-! Claim theorems. -/

/-- C1: risk categorization is a pure, deterministic three-way threshold
function of the hazard ratio: below 0.5 yields Low Risk, in [0.5, 1.5)
Medium Risk, at or above 1.5 High Risk, with exactly the stated boundary
inclusivities (0.49 Low, 0.5 Medium, 1.49 Medium, 1.5 High). -/
theorem C1_risk_thresholds (hr : ℚ) :
    (hr < 1/2 → riskScore (.val hr) = "Low Risk") ∧
    (1/2 ≤ hr → hr < 3/2 → riskScore (.val hr) = "Medium Risk") ∧
    (3/2 ≤ hr → riskScore (.val hr) = "High Risk") ∧
    riskScore (.val (49/100)) = "Low Risk" ∧
    riskScore (.val (1/2)) = "Medium Risk" ∧
    riskScore (.val (149/100)) = "Medium Risk" ∧
    riskScore (.val (3/2)) = "High Risk" := by
  have hlow : ∀ x : ℚ, x < 1/2 → riskScore (.val x) = "Low Risk" := by
    intro x hx
    have hcond : PyFloat.lt (.val x) (.val (mkRat 1 2)) = true := by
      simp [PyFloat.lt, half_eq]
      linarith
    unfold riskScore
    rw [if_pos hcond]
  have hmed : ∀ x : ℚ, 1/2 ≤ x → x < 3/2 → riskScore (.val x) = "Medium Risk" := by
    intro x hx1 hx2
    have hcond1 : ¬(PyFloat.lt (.val x) (.val (mkRat 1 2)) = true) := by
      simp [PyFloat.lt, half_eq]
      linarith
    have hcond2 : PyFloat.lt (.val x) (.val (mkRat 3 2)) = true := by
      simp [PyFloat.lt, threehalf_eq]
      linarith
    unfold riskScore
    rw [if_neg hcond1, if_pos hcond2]
  have hhigh : ∀ x : ℚ, 3/2 ≤ x → riskScore (.val x) = "High Risk" := by
    intro x hx
    have hcond1 : ¬(PyFloat.lt (.val x) (.val (mkRat 1 2)) = true) := by
      simp [PyFloat.lt, half_eq]
      linarith
    have hcond2 : ¬(PyFloat.lt (.val x) (.val (mkRat 3 2)) = true) := by
      simp [PyFloat.lt, threehalf_eq]
      linarith
    unfold riskScore
    rw [if_neg hcond1, if_neg hcond2]
  exact ⟨hlow hr, hmed hr, hhigh hr, hlow _ (by norm_num),
    hmed _ (by norm_num) (by norm_num), hmed _ (by norm_num) (by norm_num),
    hhigh _ (by norm_num)⟩

/-- C1 witness: the Low branch evaluated at hazard ratio 0.49. -/
theorem C1_risk_thresholds_witness :
    riskScore (.val (49/100)) = "Low Risk" :=
  (C1_risk_thresholds (49/100)).1 (by norm_num)

/-- C2: whenever every record in the batch is scorable by predict alone,
predict_batch succeeds with exactly one result per record, in input order,
and the i-th result's hazard ratio, risk category and patient age agree with
the response of predict on the i-th record alone. -/
theorem C2_batch_pointwise (M : Model) (ps : List PatientInput)
    (hall : ∀ p ∈ ps, ∃ r, predict M p = .ok r) :
    ∃ rs, predict_batch M ps = .ok rs ∧ rs.length = ps.length ∧
      ∀ i r, i < ps.length → predict M (ps.getD i default) = .ok r →
        (rs.getD i default).hazard_ratio = r.hazard_ratio ∧
        (rs.getD i default).risk_score = r.risk_score ∧
        (rs.getD i default).patient_age = (ps.getD i default).time := by
  induction ps with
  | nil =>
    exact ⟨[], rfl, rfl, by intro i r hi; exact absurd hi (by simp)⟩
  | cons p rest ih =>
    obtain ⟨r0, hr0⟩ := hall p (List.mem_cons_self p rest)
    obtain ⟨rs, hrs, hlen, hpt⟩ :=
      ih (fun q hq => hall q (List.mem_cons_of_mem p hq))
    refine ⟨⟨p.time, r0.hazard_ratio, r0.risk_score⟩ :: rs,
      predict_batch_cons M p rest _ rs (scoreOne_of_predict_ok M p r0 hr0) hrs,
      by simp [hlen], ?_⟩
    intro i r hi hpred
    cases i with
    | zero =>
      rw [List.getD_cons_zero] at hpred ⊢
      rw [hr0] at hpred
      injection hpred with hpred
      subst hpred
      exact ⟨rfl, rfl, rfl⟩
    | succ i =>
      rw [List.getD_cons_succ] at hpred
      have hi2 : i < rest.length := by
        simp only [List.length_cons] at hi
        omega
      have := hpt i r hi2 hpred
      simpa using this

/-- C2 witness: the batch of one sample record against the always-succeeding
collaborator. -/
theorem C2_batch_pointwise_witness :
    ∃ rs, predict_batch okModel [samplePatient] = Except.ok rs ∧
      rs.length = [samplePatient].length ∧
      ∀ i r, i < [samplePatient].length →
        predict okModel ([samplePatient].getD i default) = Except.ok r →
        (rs.getD i default).hazard_ratio = r.hazard_ratio ∧
        (rs.getD i default).risk_score = r.risk_score ∧
        (rs.getD i default).patient_age = ([samplePatient].getD i default).time :=
  C2_batch_pointwise okModel [samplePatient] (by
    intro p hp
    rw [List.mem_singleton] at hp
    subst hp
    exact ⟨_, rfl⟩)

/-- C3 counterexample: with a collaborator that raises only on the middle
record, the whole batch of three records collapses to a single error - the
first and last records receive no per-record outcome, although the first
record scores fine on its own. -/
theorem C3_batch_abort_counterexample :
    scoreOne failingModel samplePatient =
      Except.ok ⟨(55 : ℚ), PyFloat.val 1, "Medium Risk"⟩ ∧
    failingModel.partial_hazard otherPatient = Except.error "boom" ∧
    predict_batch failingModel [samplePatient, otherPatient, samplePatient] =
      Except.error "boom" :=
  ⟨rfl, rfl, rfl⟩

/-- C3 amended: a collaborator failure on any record aborts the entire batch:
predict_batch then never returns a list of per-record outcomes (the reference
behaviour wraps the whole loop in one try/except, so the first raise voids
the batch; the shared model itself is read-only and unaffected). -/
theorem C3_amended_batch_aborts (M : Model) (ps : List PatientInput)
    (p : PatientInput) (e : String) (hp : p ∈ ps)
    (he : M.partial_hazard p = .error e) :
    ∀ rs, predict_batch M ps ≠ Except.ok rs := by
  revert hp
  induction ps with
  | nil => intro hp; cases hp
  | cons q rest ih =>
    intro hp rs hok
    unfold predict_batch at hok
    rcases List.mem_cons.mp hp with heq | hmem
    · subst heq
      unfold scoreOne at hok
      rw [he] at hok
      exact Except.noConfusion hok
    · cases hs : scoreOne M q with
      | error e2 =>
        rw [hs] at hok
        exact Except.noConfusion hok
      | ok b =>
        rw [hs] at hok
        cases hb : predict_batch M rest with
        | error e2 =>
          rw [hb] at hok
          exact Except.noConfusion hok
        | ok rs2 => exact ih hmem rs2 hb

/-- C3 witness: the two-record batch with a failing second record returns no
result list. -/
theorem C3_amended_batch_aborts_witness :
    predict_batch failingModel [samplePatient, otherPatient] ≠
      Except.ok [⟨(55 : ℚ), PyFloat.val 1, "Medium Risk"⟩] :=
  C3_amended_batch_aborts failingModel [samplePatient, otherPatient]
    otherPatient "boom" (List.mem_cons_of_mem _ (List.mem_cons_self _ _)) rfl
    [⟨(55 : ℚ), PyFloat.val 1, "Medium Risk"⟩]

/-- C4: the horizon keys are exactly the in-domain members of
[a+5, a+10, a+15, a+20] (out-of-domain horizons are silently omitted, never
an error), they appear in strictly ascending order, and no key exceeds the
curve's maximum defined age. -/
theorem C4_horizon_sampling (curve : List (ℚ × ℚ)) (a : ℤ) :
    (survivalProbs curve a).map Prod.fst =
      [a + 5, a + 10, a + 15, a + 20].filter (inDomain curve) ∧
    ((survivalProbs curve a).map Prod.fst).Chain' (· < ·) ∧
    ∀ hk ∈ (survivalProbs curve a).map Prod.fst, ∀ m,
      (curve.map Prod.fst).maximum = some m → (hk : ℚ) ≤ m := by
  have hkeys : (survivalProbs curve a).map Prod.fst =
      [a + 5, a + 10, a + 15, a + 20].filter (inDomain curve) :=
    horizonProbs_keys curve [a + 5, a + 10, a + 15, a + 20]
  refine ⟨hkeys, ?_, ?_⟩
  · rw [hkeys]
    exact (List.Pairwise.filter _ (horizons_pairwise_lt a)).chain'
  · intro hk hmem m hm
    rw [hkeys] at hmem
    exact inDomain_le_max curve hk m (List.of_mem_filter hmem) hm

/-- C4 witness: the key 60 of the sample curve stays below its maximum
defined age 90. -/
theorem C4_horizon_sampling_witness : ((60 : ℤ) : ℚ) ≤ 90 :=
  (C4_horizon_sampling sampleCurve 55).2.2 60 (by decide) 90 (by decide)

/-- C5 counterexample: with curve times 59 and 61, horizon 60 is exactly
equidistant between the two; the code reports the probability stored at the
later time 61 (namely 4/5), not the one at the earlier time 59 (9/10) that
the claim's tie-break would require. -/
theorem C5_nearest_tie_counterexample :
    survivalProbs tieCurve 55 = [(60, mkRat 4 5)] ∧
    survivalProbs tieCurve 55 ≠ [(60, mkRat 9 10)] := by
  have hbase : survivalProbs tieCurve 55 = [(60, mkRat 4 5)] := by
    show ([60, 65, 70, 75] : List ℤ).filterMap (keepHorizon tieCurve) =
      [(60, mkRat 4 5)]
    rw [List.filterMap_cons_some tie_keep60,
        List.filterMap_cons_none
          (keepHorizon_of_inDomain_false tieCurve 65 (by decide)),
        List.filterMap_cons_none
          (keepHorizon_of_inDomain_false tieCurve 70 (by decide)),
        List.filterMap_cons_none
          (keepHorizon_of_inDomain_false tieCurve 75 (by decide))]
    rfl
  refine ⟨hbase, ?_⟩
  rw [hbase]
  decide

/-- C5 amended: every in-domain horizon is reported at a time point of the
sorted curve that minimizes the distance to the horizon over the whole index,
and when two time points are equally distant (the floor and ceiling
neighbours) the LATER time point is chosen, as pandas does for a
monotonically increasing index. -/
theorem C5_amended_nearest_later_tie (curve : List (ℚ × ℚ)) (hz : ℤ)
    (m : ℚ) (hs : (curve.map Prod.fst).Chain' (· < ·))
    (hm : (curve.map Prod.fst).maximum = some m) (hin : (hz : ℚ) ≤ m) :
    horizonProbs curve [hz] =
      [(hz, (curve.map Prod.snd).getD
        (nearestIndex (curve.map Prod.fst) (hz : ℚ)) 0)] ∧
    nearestIndex (curve.map Prod.fst) (hz : ℚ) < curve.length ∧
    (∀ j, j < curve.length →
      |(curve.map Prod.fst).getD (nearestIndex (curve.map Prod.fst) (hz : ℚ)) 0 -
          (hz : ℚ)| ≤
        |(curve.map Prod.fst).getD j 0 - (hz : ℚ)|) ∧
    (∀ j, j < curve.length →
      |(curve.map Prod.fst).getD j 0 - (hz : ℚ)| =
        |(curve.map Prod.fst).getD (nearestIndex (curve.map Prod.fst) (hz : ℚ)) 0 -
          (hz : ℚ)| →
      (curve.map Prod.fst).getD j 0 ≤
        (curve.map Prod.fst).getD (nearestIndex (curve.map Prod.fst) (hz : ℚ)) 0) := by
  have hne : curve ≠ [] := by
    intro hcon
    subst hcon
    simp at hm
  have hne2 : curve.map Prod.fst ≠ [] := fun hcon => hne (List.map_eq_nil_iff.mp hcon)
  have hd : inDomain curve hz = true := by
    unfold inDomain
    rw [hm]
    simpa using hin
  have hlen : (curve.map Prod.fst).length = curve.length := List.length_map _ _
  refine ⟨?_, ?_, ?_, ?_⟩
  · unfold horizonProbs
    rw [List.filterMap_cons_some (keepHorizon_of_inDomain_true curve hz hd)]
    rfl
  · have := nearestIndex_lt_length (curve.map Prod.fst) (hz : ℚ) hne2
    omega
  · intro j hj
    exact (nearestIndex_spec (curve.map Prod.fst) (hz : ℚ) hs hne2 j (by omega)).1
  · intro j hj
    exact (nearestIndex_spec (curve.map Prod.fst) (hz : ℚ) hs hne2 j (by omega)).2

/-- C5 witness: the tie curve evaluated at the equidistant horizon 60. -/
theorem C5_amended_nearest_later_tie_witness :
    horizonProbs tieCurve [60] = [(60, mkRat 4 5)] :=
  ((C5_amended_nearest_later_tie tieCurve 60 61
      (by simp [tieCurve, List.chain'_cons]; decide)
      (by decide) (by decide)).1).trans
    (by rw [tieCurve_nearest]; decide)

/-- C6: for a successful prediction over a sorted curve, the reported median
survival age is the first time point, in increasing age order, whose survival
probability is strictly below 0.5; when no point drops below 0.5, it is the
curve's maximum defined age. -/
theorem C6_median_survival (M : Model) (p : PatientInput)
    (curve : List (ℚ × ℚ)) (r : PredictionResponse)
    (hs : (curve.map Prod.fst).Chain' (· < ·))
    (hsf : M.survival_function p = .ok curve)
    (hr : predict M p = .ok r) :
    (∀ i, i < curve.length → (curve.getD i (0, 0)).2 < 1/2 →
      (∀ j, j < i → ¬((curve.getD j (0, 0)).2 < 1/2)) →
      r.median_survival_age = some (curve.getD i (0, 0)).1) ∧
    ((∀ q ∈ curve, ¬(q.2 < 1/2)) →
      ∃ m, r.median_survival_age = some m ∧ m ∈ curve.map Prod.fst ∧
        ∀ t ∈ curve.map Prod.fst, t ≤ m) := by
  obtain ⟨-, -, curve2, hsf2, -, hmed⟩ := predict_ok_spec M p r hr
  rw [hsf] at hsf2
  injection hsf2 with hsf2
  subst hsf2
  constructor
  · intro i hi hpi hmin
    rw [hmed]
    unfold medianSurvival
    rw [find?_first_getD (fun q => decide (q.2 < mkRat 1 2)) curve (0, 0) i hi
      (by rw [half_eq]; simpa using hpi)
      (fun j hj => by rw [half_eq]; simpa using hmin j hj)]
  · intro hnone
    have hfind : curve.find? (fun q => decide (q.2 < mkRat 1 2)) = none :=
      List.find?_eq_none.mpr (fun x hx => by
        rw [half_eq]
        simp only [decide_eq_true_eq]
        exact hnone x hx)
    obtain ⟨ms, hms⟩ := predict_ok_median_some M p r hr
    have hne : curve ≠ [] := by
      intro hcon
      subst hcon
      rw [hmed] at hms
      exact Option.noConfusion hms
    have hlast := List.getLast?_eq_getLast curve hne
    refine ⟨(curve.getLast hne).1, ?_, ?_, ?_⟩
    · rw [hmed]
      unfold medianSurvival
      rw [hfind, hlast]
      rfl
    · rw [List.mem_map]
      exact ⟨curve.getLast hne, List.getLast_mem hne, rfl⟩
    · intro t ht
      have hne2 : curve.map Prod.fst ≠ [] :=
        fun hcon => hne (List.map_eq_nil_iff.mp hcon)
      have hb := sorted_le_getLast (curve.map Prod.fst) hs t ht hne2
      have hgl : (curve.map Prod.fst).getLast hne2 = (curve.getLast hne).1 := by
        have h1 := List.getLast?_eq_getLast (curve.map Prod.fst) hne2
        rw [List.getLast?_map, hlast] at h1
        rw [Option.map_some'] at h1
        injection h1 with h1
        exact h1.symm
      rw [← hgl]
      exact hb

/-- C6 witness: the sample curve drops below 0.5 first at age 90 (index 1). -/
theorem C6_median_survival_witness :
    (PredictionResponse.mk (.val 1) "Medium Risk" (some 90)
      [(60, mkRat 19 20), (65, mkRat 19 20), (70, mkRat 19 20),
       (75, mkRat 19 20)]).median_survival_age =
      some ((sampleCurve.getD 1 (0, 0)).1) :=
  (C6_median_survival okModel samplePatient sampleCurve _
      (by simp [sampleCurve, List.chain'_cons]; decide) rfl rfl).1 1 (by decide)
    (by
      rw [show (sampleCurve.getD 1 (0, 0)).2 = mkRat 9 20 from by decide,
        show (mkRat 9 20 : ℚ) = 9/20 from by norm_num [Rat.mkRat_eq_div]]
      norm_num)
    (by
      intro j hj
      have hj0 : j = 0 := by omega
      subst hj0
      rw [show (sampleCurve.getD 0 (0, 0)).2 = mkRat 19 20 from by decide,
        show (mkRat 19 20 : ℚ) = 19/20 from by norm_num [Rat.mkRat_eq_div]]
      norm_num)

/-- C7: over a curve with strictly increasing times and non-increasing
probabilities, the reported horizon probabilities are non-increasing as the
horizon age increases. -/
theorem C7_horizon_probs_antitone (curve : List (ℚ × ℚ)) (a : ℤ)
    (hc : curve.Chain' (fun p q => p.1 < q.1 ∧ q.2 ≤ p.2)) :
    ((survivalProbs curve a).map Prod.snd).Chain' (fun x y => y ≤ x) :=
  horizonProbs_snd_chain curve hc [a + 5, a + 10, a + 15, a + 20]
    (horizons_pairwise_le a)

/-- C7 witness: the sample curve's horizon probabilities at age 55. -/
theorem C7_horizon_probs_antitone_witness :
    ((survivalProbs sampleCurve 55).map Prod.snd).Chain' (fun x y => y ≤ x) :=
  C7_horizon_probs_antitone sampleCurve 55
    (by simp [sampleCurve, List.chain'_cons]; decide)

/-- C8: schema validation fails exactly when one of the eleven required
fields is absent from the request record, and the outcome depends only on the
required fields - any extra fields are ignored. -/
theorem C8_schema_validation (record : List (String × ℚ)) :
    (parsePatient record = none ↔
      ∃ f ∈ requiredFields, lookupField record f = none) ∧
    ∀ record2 : List (String × ℚ),
      (∀ f ∈ requiredFields, lookupField record2 f = lookupField record f) →
      parsePatient record2 = parsePatient record := by
  constructor
  · constructor
    · intro hnone
      by_contra hno
      push_neg at hno
      obtain ⟨v1, h1⟩ := Option.ne_none_iff_exists'.mp (hno "time" (by decide))
      obtain ⟨v2, h2⟩ := Option.ne_none_iff_exists'.mp (hno "sex" (by decide))
      obtain ⟨v3, h3⟩ :=
        Option.ne_none_iff_exists'.mp (hno "chest_pain_type" (by decide))
      obtain ⟨v4, h4⟩ :=
        Option.ne_none_iff_exists'.mp (hno "resting_bp" (by decide))
      obtain ⟨v5, h5⟩ :=
        Option.ne_none_iff_exists'.mp (hno "cholesterol" (by decide))
      obtain ⟨v6, h6⟩ :=
        Option.ne_none_iff_exists'.mp (hno "fasting_bs" (by decide))
      obtain ⟨v7, h7⟩ :=
        Option.ne_none_iff_exists'.mp (hno "resting_ecg" (by decide))
      obtain ⟨v8, h8⟩ := Option.ne_none_iff_exists'.mp (hno "max_hr" (by decide))
      obtain ⟨v9, h9⟩ :=
        Option.ne_none_iff_exists'.mp (hno "exercise_angina" (by decide))
      obtain ⟨v10, h10⟩ :=
        Option.ne_none_iff_exists'.mp (hno "oldpeak" (by decide))
      obtain ⟨v11, h11⟩ :=
        Option.ne_none_iff_exists'.mp (hno "st_slope" (by decide))
      unfold parsePatient at hnone
      rw [h1, h2, h3, h4, h5, h6, h7, h8, h9, h10, h11] at hnone
      exact Option.noConfusion hnone
    · rintro ⟨f, hf, hnone⟩
      have hf11 : f = "time" ∨ f = "sex" ∨ f = "chest_pain_type" ∨
          f = "resting_bp" ∨ f = "cholesterol" ∨ f = "fasting_bs" ∨
          f = "resting_ecg" ∨ f = "max_hr" ∨ f = "exercise_angina" ∨
          f = "oldpeak" ∨ f = "st_slope" := by
        simpa [requiredFields] using hf
      unfold parsePatient
      rcases hf11 with rfl | rfl | rfl | rfl | rfl | rfl | rfl | rfl | rfl |
        rfl | rfl <;>
        (split <;> simp_all)
  · intro record2 hagree
    unfold parsePatient
    rw [hagree "time" (by decide), hagree "sex" (by decide),
        hagree "chest_pain_type" (by decide), hagree "resting_bp" (by decide),
        hagree "cholesterol" (by decide), hagree "fasting_bs" (by decide),
        hagree "resting_ecg" (by decide), hagree "max_hr" (by decide),
        hagree "exercise_angina" (by decide), hagree "oldpeak" (by decide),
        hagree "st_slope" (by decide)]

/-- C8 witness: a record missing the time field fails validation. -/
theorem C8_schema_validation_witness :
    parsePatient [("sex", (0 : ℚ))] = none :=
  (C8_schema_validation [("sex", 0)]).1.mpr ⟨"time", by decide, by decide⟩

/-- C9: every successful prediction carries a present median survival age,
despite the Optional declaration of the response schema. -/
theorem C9_median_always_present (M : Model) (p : PatientInput)
    (r : PredictionResponse) (h : predict M p = .ok r) :
    r.median_survival_age.isSome = true := by
  obtain ⟨ms, hms⟩ := predict_ok_median_some M p r h
  rw [hms]
  rfl

/-- C9 witness: the sample prediction's median field is present. -/
theorem C9_median_always_present_witness :
    (PredictionResponse.mk (.val 1) "Medium Risk" (some 90)
      [(60, mkRat 19 20), (65, mkRat 19 20), (70, mkRat 19 20),
       (75, mkRat 19 20)]).median_survival_age.isSome = true :=
  C9_median_always_present okModel samplePatient _ rfl

/-- C10: risk categorization is total and exhaustive over all embedded float
hazards, producing one of the three labels; a NaN hazard, for which both
threshold comparisons are false, is categorized High Risk. -/
theorem C10_risk_total_nan_high (h : PyFloat) :
    (riskScore h = "Low Risk" ∨ riskScore h = "Medium Risk" ∨
      riskScore h = "High Risk") ∧
    riskScore PyFloat.nan = "High Risk" := by
  constructor
  · unfold riskScore
    split_ifs <;> simp
  · rfl

end SurvivalAPI
